import Mathlib

/-!  Shallow embedding of the wasserzaehler firmware core (src/wasserzaehler.ino):
the debounced pulse acquisition interrupt handler, the volkszaehler HTTP push
path with its status-line parser and watermark, the Preferences persistence
(save, commit, and the load path of setup including the legacy EEPROM upgrade),
the /pulses administrative override handler and the MQTT temperature publish
step of loop.  Machine integers are modelled as Nat/Int with explicit
conversions at the points where the C code converts between int and uint32_t. -/

namespace Wasserzaehler

/-- 2 to the 32, the modulus of 32-bit machine words on the target. -/
def M32 : Nat := 4294967296

/-- Reinterpret a uint32_t value as a signed 32-bit int (two-complement wrap),
as the C assignments such as `int p = g_pulses_sent;` behave on the target. -/
def toInt32 (n : Nat) : Int :=
  if n % M32 < 2147483648 then ((n % M32 : Nat) : Int)
  else ((n % M32 : Nat) : Int) - 4294967296

/-- Convert a signed int value to uint32_t (two-complement wrap), as the C
assignments such as `g_pulses_sent = p;` behave on the target. -/
def toUInt32 (i : Int) : Nat := (i % 4294967296).toNat

/-- Unsigned 32-bit subtraction, as in `millis() - last_debounce` where both
operands are unsigned long. -/
def usub32 (a b : Nat) : Nat := (a + M32 - b % M32) % M32

/-- Characters treated as whitespace by the newlib strtol behind Arduino
String::toInt. -/
def isSpaceC (c : Char) : Bool :=
  c = ' ' || c = '\t' || c = '\n' || c = '\x0b' || c = '\x0c' || c = '\r'

/-- Decimal digit test, as strtol in base 10 uses. -/
def isDigitC (c : Char) : Bool := '0' ≤ c && c ≤ '9'

/-- Accumulate a run of decimal digits into a Nat. -/
def digitsToNat (l : List Char) : Nat := l.foldl (fun a c => a * 10 + (c.toNat - 48)) 0

/-- Saturate to the 32-bit long range, as newlib strtol does on overflow. -/
def clampLong (i : Int) : Int := max (-2147483648) (min 2147483647 i)

/-- Model of Arduino `String::toInt` (newlib atol/strtol, base 10): skip
leading whitespace, an optional sign, then leading decimal digits; the result
is 0 when no digits follow the optional sign. -/
def stringToInt (s : String) : Int :=
  let l := s.data.dropWhile isSpaceC
  let sgn : Int := if l.headD ' ' = '-' then -1 else 1
  let body := if l.headD ' ' = '-' ∨ l.headD ' ' = '+' then l.tail else l
  clampLong (sgn * (digitsToNat (body.takeWhile isDigitC) : Int))

/-- Arduino `String::startsWith`. -/
def startsWithA (s p : String) : Bool := s.data.take p.data.length == p.data

/-- Arduino `String::substring(from)` to the end of the string (empty when the
string is shorter than `from`). -/
def substringFrom (s : String) (n : Nat) : String := ⟨s.data.drop n⟩

/-- Arduino `String::length`. -/
def lenA (s : String) : Nat := s.data.length

/-- Arduino `String::isEmpty`. -/
def strEmpty (s : String) : Bool := s.data.isEmpty

/-- State touched by the edge interrupt handler: `hilo` is the stored level,
`pulses` the volatile pulse counter, `last_debounce` the millis value stored at
the last level-differing event (src/wasserzaehler.ino lines 240 to 252). -/
structure IsrState where
  hilo : Int
  pulses : Int
  last_debounce : Nat
deriving DecidableEq

/-- The debounce window in milliseconds (`debounce_delay = 100`). -/
def debounce_delay : Nat := 100

/-- Embeds `isr()` (src/wasserzaehler.ino lines 254 to 270).  `t` is the value
millis() returns during the call (the two calls inside the handler are modelled
as returning the same value) and `input` is digitalRead(inputPin).  Note the C
code stores `last_debounce = millis();` before testing the debounce flag, so
every level-differing event updates `last_debounce`. -/
def isr (s : IsrState) (t : Nat) (input : Int) : IsrState :=
  if s.hilo = input then s
  else if usub32 t s.last_debounce < debounce_delay then
    { s with last_debounce := t % M32 }
  else
    { hilo := input,
      pulses := if input ≠ 0 then s.pulses + 1 else s.pulses,
      last_debounce := t % M32 }

/-- Fold a list of (millis, level) signal-change events through `isr`. -/
def isrRun (s : IsrState) (evs : List (Nat × Int)) : IsrState :=
  evs.foldl (fun st e => isr st e.1 e.2) s

/-- The in-RAM state read and written by `vz_push`: the uint32_t watermark
`g_pulses_sent` and the endpoint configuration strings. -/
structure VzState where
  g_pulses_sent : Nat
  g_vzhost : String
  g_vzurl : String
deriving DecidableEq

/-- `check_vzserver()` (line 294): both endpoint strings non-empty. -/
def check_vzserver (s : VzState) : Bool :=
  !(strEmpty s.g_vzhost) && !(strEmpty s.g_vzurl)

/-- Outcome of the single network interaction inside one `vz_push` call:
either the TCP connect fails, or a request is sent and `response` carries the
at most 13 bytes of the status line that were read back (the empty string when
the 5000 ms timeout expired with no data, a prefix when the line was cut). -/
inductive PushOutcome where
  | connectFail : PushOutcome
  | response : String → PushOutcome
deriving DecidableEq

/-- Embeds `code_from_str` (src/wasserzaehler.ino lines 591 to 598). -/
def code_from_str (s : String) : Int :=
  if !(startsWithA s "HTTP/1.") then -1
  else if lenA (substringFrom s 9) < 3 then -1
  else stringToInt (substringFrom s 9)

/-- Embeds `vz_push(count)` (src/wasserzaehler.ino lines 600 to 650).  The
result is (new state, returned bool, transmitted value when a request was
issued).  `int p = g_pulses_sent;` converts the uint32_t watermark to int,
then `if (count > p) p = count;` takes the maximum, the GET request carries
`value=p`, and only a parsed status of exactly 200 stores p back into the
watermark. -/
def vz_push (st : VzState) (count : Int) (out : PushOutcome) :
    VzState × Bool × Option Int :=
  if !(check_vzserver st) then (st, false, none)
  else
    match out with
    | PushOutcome.connectFail => (st, false, none)
    | PushOutcome.response line =>
        let p0 : Int := toInt32 st.g_pulses_sent
        let p : Int := if count > p0 then count else p0
        if code_from_str line = 200 then
          ({ st with g_pulses_sent := toUInt32 p }, true, some p)
        else (st, false, some p)

/-- Fold a sequence of push attempts (count, outcome) through `vz_push`,
keeping only the state. -/
def vz_pushRun (st : VzState) (attempts : List (Int × PushOutcome)) : VzState :=
  attempts.foldl (fun s a => (vz_push s a.1 a.2).1) st

/-- The status-line parse as the spec words it: the integer that starts 9
characters into the line when the string begins with the fixed protocol
marker HTTP/1. and has at least 3 characters from position 9 onward, and -1
for every other string. -/
def spec_status_code (s : String) : Int :=
  if startsWithA s "HTTP/1." = true ∧ 3 ≤ lenA (substringFrom s 9)
  then stringToInt (substringFrom s 9) else -1

/-- The Preferences namespace "wasserzaehler": one optional cell per key.
The pref_putString workaround stores an empty string as a 0 char and getString
reads such a cell back as the empty string, so string cells round trip and are
modelled as plain string values. -/
structure Prefs where
  version : Option Int
  pulses : Option Nat
  pulses_sent : Option Nat
  vzhost : Option String
  vzurl : Option String
  mqtthost : Option String
  mqtttopic : Option String
  mqttport : Option Nat
deriving DecidableEq

/-- The RAM globals relevant to persistence, push and the override handler. -/
structure Ram where
  g_pulses : Nat
  g_pulses_sent : Nat
  g_vzhost : String
  g_vzurl : String
  g_mqtthost : String
  g_mqtttopic : String
  g_mqttport : Nat
  pulses : Int
  last_pulse : Int
deriving DecidableEq

/-- Embeds `prefs_save()` (src/wasserzaehler.ino lines 492 to 510): rewrites
every key of the namespace from the RAM globals, with version 1. -/
def prefs_save (r : Ram) : Prefs :=
  { version := some 1,
    pulses := some r.g_pulses,
    pulses_sent := some r.g_pulses_sent,
    vzhost := some r.g_vzhost,
    vzurl := some r.g_vzurl,
    mqtthost := some r.g_mqtthost,
    mqtttopic := some r.g_mqtttopic,
    mqttport := some r.g_mqttport }

/-- Embeds `commit_config()` (src/wasserzaehler.ino lines 658 to 664).
Result: (new RAM, new Prefs store, whether prefs_save ran).  The comparison
`g_pulses != last_pulse` promotes the int `last_pulse` to uint32_t and the
assignment `last_pulse = g_pulses;` converts back. -/
def commit_config (r : Ram) (p : Prefs) : Ram × Prefs × Bool :=
  if r.g_pulses = toUInt32 r.last_pulse then
    ({ r with last_pulse := toInt32 r.g_pulses }, p, false)
  else
    ({ r with last_pulse := toInt32 r.g_pulses }, prefs_save r, true)

/-- The "reading Preferences..." branch of setup() (lines 730 to 741) plus the
trailing `pulses = g_pulses;`: each global is read from its key with the boot
default as fallback (0 for the counters, empty strings, 1883 for the port);
`last_pulse` keeps its zero initializer. -/
def ram_from_prefs (p : Prefs) : Ram :=
  { g_pulses := p.pulses.getD 0,
    g_pulses_sent := p.pulses_sent.getD 0,
    g_vzhost := p.vzhost.getD "",
    g_vzurl := p.vzurl.getD "",
    g_mqtthost := p.mqtthost.getD "",
    g_mqtttopic := p.mqtttopic.getD "",
    g_mqttport := p.mqttport.getD 1883,
    pulses := toInt32 (p.pulses.getD 0),
    last_pulse := 0 }

/-- The legacy EEPROM record `struct eeprom_state` (lines 58 to 64): the
signature bytes are modelled as Nats in 0..255. -/
structure EepromState where
  sig : List Nat
  pulses : Int
  pulses_sent : Int
  vzhost : String
  vzurl : String
deriving DecidableEq

/-- The ASCII bytes of the signature WATER1. -/
def WATER1 : List Nat := [87, 65, 84, 69, 82, 49]

/-- The legacy recognition test, the negation of
`persist.sig[0] == 0xff || memcmp(persist.sig, "WATER1", 6)` (line 714). -/
def legacy_valid (e : EepromState) : Bool :=
  !(e.sig.headD 0 == 255) && (e.sig.take 6 == WATER1)

/-- Result of the persistence-load part of setup(). -/
structure SetupResult where
  ram : Ram
  prefs : Prefs
  eeprom : EepromState
  usedLegacy : Bool
deriving DecidableEq

/-- Embeds the persistence-load part of setup() (src/wasserzaehler.ino lines
704 to 741).  When the Preferences version key is missing (getInt default -1),
the legacy EEPROM record is read: a recognized record is mapped into the
globals, otherwise they are zeroed; either way prefs_save immediately
re-commits in the current format.  The EEPROM itself is only read, never
written.  When the version key exists, the globals are read from Preferences.
`usedLegacy` records which branch ran. -/
def setup_load (p : Prefs) (e : EepromState) : SetupResult :=
  if p.version.getD (-1) = -1 then
    let ram0 : Ram :=
      if legacy_valid e then
        { g_pulses := toUInt32 e.pulses,
          g_pulses_sent := toUInt32 e.pulses_sent,
          g_vzhost := e.vzhost, g_vzurl := e.vzurl,
          g_mqtthost := "", g_mqtttopic := "", g_mqttport := 1883,
          pulses := 0, last_pulse := 0 }
      else
        { g_pulses := 0, g_pulses_sent := 0, g_vzhost := "", g_vzurl := "",
          g_mqtthost := "", g_mqtttopic := "", g_mqttport := 1883,
          pulses := 0, last_pulse := 0 }
    { ram := { ram0 with pulses := toInt32 ram0.g_pulses },
      prefs := prefs_save ram0,
      eeprom := e,
      usedLegacy := true }
  else
    { ram := ram_from_prefs p, prefs := p, eeprom := e, usedLegacy := false }

/-- Embeds `handle_pulses` (src/wasserzaehler.ino lines 408 to 429): `arg` is
the optional `set` query argument; the result is the new value of the volatile
`pulses` counter and the HTTP response code. -/
def handle_pulses (arg : Option String) (pulses : Int) : Int × Nat :=
  match arg with
  | none => (pulses, 200)
  | some a =>
      let p := stringToInt a
      if p ≠ 0 then
        (if p ≠ pulses then p else pulses, 200)
      else (pulses, 500)

/-- `check_mqserver()` (line 298): host and topic non-empty and port nonzero. -/
def check_mqserver (r : Ram) : Bool :=
  !(strEmpty r.g_mqtthost) && !(strEmpty r.g_mqtttopic) && !(r.g_mqttport == 0)

/-- DEVICE_DISCONNECTED_RAW of the DallasTemperature library. -/
def DEVICE_DISCONNECTED_RAW : Int := -7040

/-- Digits of a Nat, most significant first; the fuel is one more than the
number so the recursion is structural. -/
def natToDecAux : Nat → Nat → List Char
  | 0, _ => []
  | fuel+1, n =>
    if n < 10 then [Char.ofNat (48 + n)]
    else natToDecAux fuel (n / 10) ++ [Char.ofNat (48 + n % 10)]

/-- Decimal rendering of a Nat. -/
def natToDec (n : Nat) : String := ⟨natToDecAux (n + 1) n⟩

/-- Decimal rendering of an Int (the UTF-8 decimal string of a value). -/
def intToDec (i : Int) : String :=
  if i < 0 then "-" ++ natToDec (-i).toNat else natToDec i.toNat

/-- Models `String(g_temp, 1)` for g_temp = n/128.0f with n a non-negative raw
DS18B20 reading: the float quotient n/128 is exact (128 is a power of two) and
dtostrf adds 0.5e-1 to the value and then emits the digits, which on the exact
rational is rendering round(10n/128 half up) with one decimal place. -/
def tempPayloadNat (n : Nat) : String :=
  let n10 := (20 * n + 128) / 256
  natToDec (n10 / 10) ++ "." ++ natToDec (n10 % 10)

/-- `String(g_temp, 1)` for g_temp = t/128.0f: dtostrf prints a minus sign for
negative values and renders the magnitude. -/
def tempPayload (t : Int) : String :=
  if t < 0 then "-" ++ tempPayloadNat (-t).toNat else tempPayloadNat t.toNat

/-- Embeds the temperature and MQTT publish section of loop()
(src/wasserzaehler.ino lines 845 to 858): when a requested conversion is
complete, the temperature is read; if the reading is valid and the MQTT sink
is configured, `String(g_temp, 1)` is published to `g_mqtttopic`.  The result
is `some (topic, payload)` when a publish is issued. -/
def mqtt_temp_publish (r : Ram) (temp_request conversionComplete : Bool)
    (rawT : Int) : Option (String × String) :=
  if temp_request && conversionComplete then
    if rawT ≠ DEVICE_DISCONNECTED_RAW ∧ check_mqserver r = true then
      some (r.g_mqtttopic, tempPayload rawT)
    else none
  else none

/-- An empty Preferences store (fresh flash). -/
def prefs0 : Prefs := ⟨none, none, none, none, none, none, none, none⟩

/-- A concrete recognized legacy EEPROM record. -/
def e0 : EepromState := ⟨[87, 65, 84, 69, 82, 49, 0, 0], 7, 3, "legacyhost", "/legacy"⟩

/-- A concrete RAM state with MQTT configured and 42 counted pulses. -/
def ramC8 : Ram := ⟨42, 0, "", "", "broker", "home/temp", 1883, 42, 0⟩

/-! ## Helper lemmas about the machine-word conversions -/

theorem usub32_small (a b : Nat) (hb : b ≤ a) (ha : a < M32) : usub32 a b = a - b := by
  have ha' : a < 4294967296 := ha
  unfold usub32 M32
  have hb' : b % 4294967296 = b := Nat.mod_eq_of_lt (lt_of_le_of_lt hb ha')
  rw [hb']
  omega

theorem toInt32_small (n : Nat) (h : n < 2147483648) : toInt32 n = (n : Int) := by
  unfold toInt32 M32
  have hn : n % 4294967296 = n := Nat.mod_eq_of_lt (by omega)
  rw [hn]
  simp [h]

theorem toUInt32_toInt32 (n : Nat) (h : n < M32) : toUInt32 (toInt32 n) = n := by
  have h' : n < 4294967296 := h
  unfold toUInt32 toInt32 M32
  have hn : n % 4294967296 = n := Nat.mod_eq_of_lt h'
  rw [hn]
  split
  · omega
  · omega

theorem toUInt32_castNat (n : Nat) (h : n < M32) : toUInt32 (n : Int) = n := by
  have h' : n < 4294967296 := h
  unfold toUInt32
  omega

/-! ## C1 — debounce window reset on bounced events -/

/-- C1: counterexample.  The claim states that an event inside the debounce
window does not update `last_debounce`.  In the code the assignment
`last_debounce = millis();` runs before the bounce check, so the bounced event
at t = 1050 (50 ms after the accepted transition at 1000) is ignored as bounce
yet moves `last_debounce` from 1000 to 1050. -/
theorem isr_bounce_updates_window_cex :
    usub32 1050 1000 < debounce_delay ∧
    (isr ⟨0, 0, 1000⟩ 1050 1).pulses = 0 ∧
    (isr ⟨0, 0, 1000⟩ 1050 1).hilo = 0 ∧
    (isr ⟨0, 0, 1000⟩ 1050 1).last_debounce = 1050 ∧ (1050 : Nat) ≠ 1000 := by
  decide

/-- C1 (amended): every signal-change event whose level differs from the
stored level updates `last_debounce` to the event time, whether or not the
event is accepted; an event inside the debounce window is ignored as bounce
(count and stored level unchanged) but it does reset the window, so a bounced
event extends the window. -/
theorem isr_bounce_extends_window (s : IsrState) (t : Nat) (input : Int)
    (hne : s.hilo ≠ input) (ht : t < M32) :
    (isr s t input).last_debounce = t ∧
    (usub32 t s.last_debounce < debounce_delay →
      (isr s t input).pulses = s.pulses ∧ (isr s t input).hilo = s.hilo) := by
  have htm : t % M32 = t := Nat.mod_eq_of_lt ht
  unfold isr
  rw [if_neg hne]
  by_cases hd : usub32 t s.last_debounce < debounce_delay
  · rw [if_pos hd]
    exact ⟨htm, fun _ => ⟨rfl, rfl⟩⟩
  · rw [if_neg hd]
    exact ⟨htm, fun h => absurd h hd⟩

/-- Witness for the amended C1 theorem at a concrete bounced event. -/
theorem isr_bounce_extends_window_witness :
    (isr ⟨0, 3, 1000⟩ 1050 1).last_debounce = 1050 ∧
    (isr ⟨0, 3, 1000⟩ 1050 1).pulses = 3 := by
  have h := isr_bounce_extends_window ⟨0, 3, 1000⟩ 1050 1 (by decide) (by decide)
  exact ⟨h.1, (h.2 (by decide)).1⟩

/-! ## C3 — events inside the window never change the count -/

theorem isrRun_window_aux (t0 : Nat) (hM : t0 + debounce_delay ≤ M32)
    (evs : List (Nat × Int)) :
    (∀ e ∈ evs, t0 ≤ e.1 ∧ e.1 < t0 + debounce_delay) →
    List.Pairwise (fun a b => a.1 ≤ b.1) evs →
    ∀ s : IsrState, t0 ≤ s.last_debounce →
      (∀ e ∈ evs, s.last_debounce ≤ e.1) →
      (isrRun s evs).pulses = s.pulses ∧ (isrRun s evs).hilo = s.hilo := by
  induction evs with
  | nil => intro _ _ s _ _; exact ⟨rfl, rfl⟩
  | cons e rest ih =>
      intro hwin hpair s hs1 hs3
      obtain ⟨t, lvl⟩ := e
      have hwt := hwin (t, lvl) (List.mem_cons_self _ _)
      have hst : s.last_debounce ≤ t := hs3 (t, lvl) (List.mem_cons_self _ _)
      have htM : t < M32 := lt_of_lt_of_le hwt.2 hM
      have htmod : t % M32 = t := Nat.mod_eq_of_lt htM
      have hstep : isrRun s ((t, lvl) :: rest) = isrRun (isr s t lvl) rest := rfl
      rw [hstep]
      by_cases hlevel : s.hilo = lvl
      · have hid : isr s t lvl = s := by simp [isr, hlevel]
        rw [hid]
        exact ih (fun x hx => hwin x (List.mem_cons_of_mem _ hx)) hpair.of_cons s hs1
          (fun x hx => hs3 x (List.mem_cons_of_mem _ hx))
      · have hd : usub32 t s.last_debounce < debounce_delay := by
          rw [usub32_small t s.last_debounce hst htM]
          omega
        have hisr : isr s t lvl = { s with last_debounce := t % M32 } := by
          simp [isr, hlevel, hd]
        rw [hisr]
        have hres := ih (fun x hx => hwin x (List.mem_cons_of_mem _ hx)) hpair.of_cons
          { s with last_debounce := t % M32 }
          (by rw [htmod] at *; simpa using hwt.1)
          (fun x hx => by
            simpa [htmod] using List.rel_of_pairwise_cons hpair hx)
        exact hres

/-- C3: for every time-ordered sequence of signal-change events that all fall
inside the debounce window of an already-accepted transition at time t0 (the
state stores t0 in `last_debounce`), the pulse count and the stored level do
not change; and an event whose level equals the stored level leaves the state
fully unchanged regardless of its timing. -/
theorem debounce_window_no_count (s0 : IsrState) (t0 : Nat) (evs : List (Nat × Int))
    (hld : s0.last_debounce = t0)
    (hM : t0 + debounce_delay ≤ M32)
    (hwin : ∀ e ∈ evs, t0 ≤ e.1 ∧ e.1 < t0 + debounce_delay)
    (hpair : List.Pairwise (fun a b => a.1 ≤ b.1) evs) :
    ((isrRun s0 evs).pulses = s0.pulses ∧ (isrRun s0 evs).hilo = s0.hilo) ∧
    (∀ (s : IsrState) (t : Nat) (lvl : Int), s.hilo = lvl → isr s t lvl = s) := by
  constructor
  · exact isrRun_window_aux t0 hM evs hwin hpair s0 (le_of_eq hld.symm)
      (fun e he => hld ▸ (hwin e he).1)
  · intro s t lvl h
    simp [isr, h]

/-- Witness for the C3 theorem: three bounced events right after an accepted
transition at 1000 leave the count at 5, and a same-level event is a no-op. -/
theorem debounce_window_no_count_witness :
    (isrRun ⟨0, 5, 1000⟩ [(1010, 1), (1050, 0), (1099, 1)]).pulses = 5 ∧
    isr ⟨1, 7, 0⟩ 999999 1 = ⟨1, 7, 0⟩ := by
  have h := debounce_window_no_count ⟨0, 5, 1000⟩ 1000 [(1010, 1), (1050, 0), (1099, 1)]
    rfl (by decide) (by decide) (by decide)
  exact ⟨h.1.1, h.2 ⟨1, 7, 0⟩ 999999 1 rfl⟩

/-! ## C2 — watermark monotonicity of vz_push -/

theorem vz_push_step (s : VzState) (count : Int) (out : PushOutcome)
    (hw : s.g_pulses_sent < 2147483648)
    (h1 : -2147483648 ≤ count) (h2 : count < 2147483648) :
    s.g_pulses_sent ≤ (vz_push s count out).1.g_pulses_sent ∧
    (vz_push s count out).1.g_pulses_sent < 2147483648 ∧
    ((vz_push s count out).1.g_pulses_sent ≠ s.g_pulses_sent →
      ∃ line, out = PushOutcome.response line ∧ code_from_str line = 200 ∧
        (vz_push s count out).2.2 = some (max ((s.g_pulses_sent : Nat) : Int) count) ∧
        (((vz_push s count out).1.g_pulses_sent : Nat) : Int)
          = max ((s.g_pulses_sent : Nat) : Int) count) := by
  cases hsrv : check_vzserver s with
  | false =>
      simp [vz_push, hsrv, hw]
  | true =>
      cases out with
      | connectFail => simp [vz_push, hsrv, hw]
      | response line =>
          by_cases hret : code_from_str line = 200
          · have hp0 : toInt32 s.g_pulses_sent = ((s.g_pulses_sent : Nat) : Int) :=
              toInt32_small _ hw
            have hform : vz_push s count (PushOutcome.response line) =
                ({ s with g_pulses_sent :=
                    toUInt32 (if count > toInt32 s.g_pulses_sent then count
                              else toInt32 s.g_pulses_sent) }, true,
                 some (if count > toInt32 s.g_pulses_sent then count
                       else toInt32 s.g_pulses_sent)) := by
              simp [vz_push, hsrv, hret]
            rw [hform]
            rw [hp0]
            have hmax : (if count > ((s.g_pulses_sent : Nat) : Int) then count
                else ((s.g_pulses_sent : Nat) : Int))
                = max ((s.g_pulses_sent : Nat) : Int) count := by
              rcases le_or_lt count ((s.g_pulses_sent : Nat) : Int) with h | h
              · rw [if_neg (not_lt.mpr h), max_eq_left h]
              · rw [if_pos h, max_eq_right (le_of_lt h)]
            rw [hmax]
            have hb1 : ((s.g_pulses_sent : Nat) : Int)
                ≤ max ((s.g_pulses_sent : Nat) : Int) count := le_max_left _ _
            have hb0 : (0 : Int) ≤ max ((s.g_pulses_sent : Nat) : Int) count :=
              le_trans (Int.natCast_nonneg _) hb1
            have hb2 : max ((s.g_pulses_sent : Nat) : Int) count < 2147483648 :=
              max_lt (by exact_mod_cast hw) h2
            have ht : ((toUInt32 (max ((s.g_pulses_sent : Nat) : Int) count) : Nat) : Int)
                = max ((s.g_pulses_sent : Nat) : Int) count := by
              unfold toUInt32
              omega
            refine ⟨?_, ?_, ?_⟩
            · have : ((s.g_pulses_sent : Nat) : Int)
                  ≤ ((toUInt32 (max ((s.g_pulses_sent : Nat) : Int) count) : Nat) : Int) := by
                rw [ht]; exact hb1
              exact_mod_cast this
            · have : ((toUInt32 (max ((s.g_pulses_sent : Nat) : Int) count) : Nat) : Int)
                  < 2147483648 := by rw [ht]; exact hb2
              exact_mod_cast this
            · intro _
              exact ⟨line, rfl, hret, rfl, ht⟩
          · have hform : vz_push s count (PushOutcome.response line) =
                (s, false, some (if count > toInt32 s.g_pulses_sent then count
                                 else toInt32 s.g_pulses_sent)) := by
              simp [vz_push, hsrv, hret]
            rw [hform]
            exact ⟨le_refl _, hw, fun h => absurd rfl h⟩

theorem vz_pushRun_mono (attempts : List (Int × PushOutcome)) :
    ∀ s : VzState, s.g_pulses_sent < 2147483648 →
      (∀ a ∈ attempts, -2147483648 ≤ a.1 ∧ a.1 < 2147483648) →
      s.g_pulses_sent ≤ (vz_pushRun s attempts).g_pulses_sent ∧
      (vz_pushRun s attempts).g_pulses_sent < 2147483648 := by
  induction attempts with
  | nil => intro s hs _; exact ⟨le_refl _, hs⟩
  | cons a rest ih =>
      intro s hs hb
      have hmem := hb a (List.mem_cons_self _ _)
      have hstep := vz_push_step s a.1 a.2 hs hmem.1 hmem.2
      have hrest := ih (vz_push s a.1 a.2).1 hstep.2.1
        (fun x hx => hb x (List.mem_cons_of_mem _ hx))
      have hcons : vz_pushRun s (a :: rest) = vz_pushRun (vz_push s a.1 a.2).1 rest := rfl
      rw [hcons]
      exact ⟨le_trans hstep.1 hrest.1, hrest.2⟩

/-- C2: counterexample.  The claim quantifies over every starting state, but
with a watermark of 2 to the 31 the conversion `int p = g_pulses_sent;` wraps
to a negative int, `count > p` then replaces it by the much smaller count, and
a successful push stores that count back: the watermark decreases from
2147483648 to 5. -/
theorem vz_push_watermark_decrease_cex :
    (vz_push ⟨2147483648, "h", "/u"⟩ 5 (PushOutcome.response "HTTP/1.1 200 OK")).1.g_pulses_sent
      = 5 ∧
    ¬ ((2147483648 : Nat) ≤
        (vz_push ⟨2147483648, "h", "/u"⟩ 5
          (PushOutcome.response "HTTP/1.1 200 OK")).1.g_pulses_sent) := by
  decide

/-- C2 (amended): for every starting state whose watermark fits the C int used
inside vz_push (g_pulses_sent at most 2147483647) and every sequence of push
attempts with int-ranged counts, the watermark afterwards is at least its value
before; and a single attempt changes the watermark only when the parsed
response status is exactly 200, in which case the new watermark is exactly the
transmitted value max(previous watermark, count). -/
theorem vz_push_watermark_monotone (st : VzState) (attempts : List (Int × PushOutcome))
    (hw : st.g_pulses_sent < 2147483648)
    (hc : ∀ a ∈ attempts, -2147483648 ≤ a.1 ∧ a.1 < 2147483648) :
    st.g_pulses_sent ≤ (vz_pushRun st attempts).g_pulses_sent ∧
    (∀ (s : VzState) (count : Int) (out : PushOutcome),
      s.g_pulses_sent < 2147483648 → -2147483648 ≤ count → count < 2147483648 →
      (vz_push s count out).1.g_pulses_sent ≠ s.g_pulses_sent →
      ∃ line, out = PushOutcome.response line ∧ code_from_str line = 200 ∧
        (vz_push s count out).2.2 = some (max ((s.g_pulses_sent : Nat) : Int) count) ∧
        (((vz_push s count out).1.g_pulses_sent : Nat) : Int)
          = max ((s.g_pulses_sent : Nat) : Int) count) := by
  exact ⟨(vz_pushRun_mono attempts st hw hc).1,
    fun s count out ha hb hd hne => (vz_push_step s count out ha hb hd).2.2 hne⟩

/-- Witness for the amended C2 theorem: a failed (non-200) attempt leaves the
watermark 7 in place. -/
theorem vz_push_watermark_monotone_witness :
    (VzState.mk 7 "h" "/u").g_pulses_sent ≤
      (vz_pushRun (VzState.mk 7 "h" "/u")
        [(3, PushOutcome.response "HTTP/1.0 500 x")]).g_pulses_sent := by
  have h := vz_push_watermark_monotone (VzState.mk 7 "h" "/u")
    [(3, PushOutcome.response "HTTP/1.0 500 x")] (by decide) (by decide)
  exact h.1

/-! ## C5 — status-line parsing -/

/-- C5: code_from_str agrees with the parse described by the spec on every
string (the integer starting 9 characters in when the string begins with the
protocol marker and has at least 3 characters from position 9 onward, -1 for
every other string), and in particular parses the two statute examples to 200
and 500. -/
theorem code_from_str_spec :
    (∀ s : String, code_from_str s = spec_status_code s) ∧
    code_from_str "HTTP/1.1 200 OK" = 200 ∧
    code_from_str "HTTP/1.0 500 Internal Error" = 500 := by
  refine ⟨fun s => ?_, by decide, by decide⟩
  by_cases h1 : startsWithA s "HTTP/1." = true
  · by_cases h2 : lenA (substringFrom s 9) < 3
    · have h2' : ¬ (3 ≤ lenA (substringFrom s 9)) := by omega
      simp [code_from_str, spec_status_code, h1, h2, h2']
    · have h2' : 3 ≤ lenA (substringFrom s 9) := by omega
      simp [code_from_str, spec_status_code, h1, h2, h2']
  · have h1' : startsWithA s "HTTP/1." = false := by
      rwa [Bool.not_eq_true] at h1
    simp [code_from_str, spec_status_code, h1']

/-! ## C4 — legacy upgrade -/

theorem prefs_save_version (r : Ram) : (prefs_save r).version = some 1 := rfl

theorem setup_load_prefs_branch (p : Prefs) (e : EepromState) (n : Int)
    (hv : p.version = some n) (hn : ¬ n = -1) :
    setup_load p e = ⟨ram_from_prefs p, p, e, false⟩ := by
  unfold setup_load
  rw [hv]
  simp [hn]

/-- C4: counterexample.  The claim states that after a successful legacy read
the legacy store is cleared.  Starting from an empty Preferences store and a
recognized WATER1 record, setup takes the legacy path but leaves the EEPROM
record byte-for-byte unchanged: it still carries the recognized signature. -/
theorem legacy_store_not_cleared_cex :
    legacy_valid e0 = true ∧
    (setup_load prefs0 e0).usedLegacy = true ∧
    (setup_load prefs0 e0).eeprom = e0 ∧
    legacy_valid (setup_load prefs0 e0).eeprom = true := by
  decide

/-- C4 (amended): after a successful legacy read the mapped state is
immediately re-committed in the current format with version 1; the legacy
EEPROM store is not cleared, but because the Preferences version key now
exists, a subsequent startup takes the Preferences branch, so the
legacy-to-current upgrade still runs exactly once across restarts. -/
theorem legacy_upgrade_runs_once (p : Prefs) (e : EepromState)
    (hv : p.version = none) :
    (setup_load p e).usedLegacy = true ∧
    (setup_load p e).prefs.version = some 1 ∧
    (setup_load p e).eeprom = e ∧
    (setup_load (setup_load p e).prefs (setup_load p e).eeprom).usedLegacy = false ∧
    (setup_load (setup_load p e).prefs (setup_load p e).eeprom).eeprom = e := by
  have h1 : (setup_load p e).usedLegacy = true := by
    unfold setup_load
    rw [hv]
    simp
  have h2 : (setup_load p e).prefs.version = some 1 := by
    unfold setup_load
    rw [hv]
    simp [prefs_save_version]
  have h3 : (setup_load p e).eeprom = e := by
    unfold setup_load
    rw [hv]
    simp
  have hbranch := setup_load_prefs_branch (setup_load p e).prefs (setup_load p e).eeprom
    1 h2 (by decide)
  have h4 : (setup_load (setup_load p e).prefs (setup_load p e).eeprom).usedLegacy
      = false := by
    rw [hbranch]
  have h5 : (setup_load (setup_load p e).prefs (setup_load p e).eeprom).eeprom = e := by
    rw [hbranch]
    exact h3
  exact ⟨h1, h2, h3, h4, h5⟩

/-- Witness for the amended C4 theorem at the concrete legacy record. -/
theorem legacy_upgrade_runs_once_witness :
    (setup_load prefs0 e0).usedLegacy = true ∧
    (setup_load (setup_load prefs0 e0).prefs (setup_load prefs0 e0).eeprom).usedLegacy
      = false := by
  have h := legacy_upgrade_runs_once prefs0 e0 rfl
  exact ⟨h.1, h.2.2.2.1⟩

/-! ## C6 — write suppression in commit_config -/

theorem commit_config_skip (r : Ram) (p : Prefs)
    (h : r.g_pulses = toUInt32 r.last_pulse) :
    commit_config r p = ({ r with last_pulse := toInt32 r.g_pulses }, p, false) := by
  unfold commit_config
  rw [if_pos h]

/-- C6: when commit_config runs with the current pulse count equal to the
value recorded at the previous commit, no durable write happens and the
Preferences store is untouched; and whatever the starting state, an immediately
repeated commit (with g_pulses unchanged in between) performs no second write,
so committing the same logical state twice in a row writes at most once. -/
theorem commit_write_suppression (r : Ram) (p : Prefs) (hg : r.g_pulses < M32) :
    ((r.g_pulses : Int) = r.last_pulse →
      (commit_config r p).2.1 = p ∧ (commit_config r p).2.2 = false) ∧
    ((commit_config (commit_config r p).1 (commit_config r p).2.1).2.2 = false ∧
     (commit_config (commit_config r p).1 (commit_config r p).2.1).2.1
       = (commit_config r p).2.1) := by
  constructor
  · intro heq
    have hcond : r.g_pulses = toUInt32 r.last_pulse := by
      rw [← heq, toUInt32_castNat _ hg]
    rw [commit_config_skip r p hcond]
    exact ⟨rfl, rfl⟩
  · have hram1 : (commit_config r p).1.g_pulses = r.g_pulses := by
      unfold commit_config
      split <;> rfl
    have hram2 : (commit_config r p).1.last_pulse = toInt32 r.g_pulses := by
      unfold commit_config
      split <;> rfl
    have hcond2 : (commit_config r p).1.g_pulses
        = toUInt32 (commit_config r p).1.last_pulse := by
      rw [hram1, hram2, toUInt32_toInt32 _ hg]
    rw [commit_config_skip ((commit_config r p).1) ((commit_config r p).2.1) hcond2]
    exact ⟨rfl, rfl⟩

/-- Witness for the C6 theorem: a commit of an unchanged count performs no
write against an empty store. -/
theorem commit_write_suppression_witness :
    (commit_config (Ram.mk 10 2 "" "" "" "" 1883 10 10) prefs0).2.2 = false ∧
    (commit_config (commit_config (Ram.mk 10 2 "" "" "" "" 1883 10 10) prefs0).1
      (commit_config (Ram.mk 10 2 "" "" "" "" 1883 10 10) prefs0).2.1).2.2 = false := by
  have h := commit_write_suppression (Ram.mk 10 2 "" "" "" "" 1883 10 10) prefs0 (by decide)
  exact ⟨(h.1 (by decide)).2, h.2.1⟩

/-! ## C9 — a watermark-only change is never persisted by the commit timer -/

/-- C9: when between two commits only the sent watermark changed (the pulse
count still equals the value recorded at the previous commit), commit_config
performs no durable write and leaves the Preferences store untouched, so after
a restart the watermark read back is the value last saved in the store, not
the advanced in-RAM one. -/
theorem commit_skips_watermark_only_change (r : Ram) (p : Prefs) (w : Nat)
    (hg : r.g_pulses < M32) (heq : (r.g_pulses : Int) = r.last_pulse) :
    (commit_config { r with g_pulses_sent := w } p).2.2 = false ∧
    (commit_config { r with g_pulses_sent := w } p).2.1 = p ∧
    (ram_from_prefs (commit_config { r with g_pulses_sent := w } p).2.1).g_pulses_sent
      = p.pulses_sent.getD 0 := by
  have hcond : ({ r with g_pulses_sent := w } : Ram).g_pulses
      = toUInt32 ({ r with g_pulses_sent := w } : Ram).last_pulse := by
    show r.g_pulses = toUInt32 r.last_pulse
    rw [← heq, toUInt32_castNat _ hg]
  unfold commit_config
  rw [if_pos hcond]
  exact ⟨rfl, rfl, rfl⟩

/-- Witness for the C9 theorem: an advanced watermark 99 is not written, the
store keeps 3, and a reload yields 3 again. -/
theorem commit_skips_watermark_only_change_witness :
    (commit_config { Ram.mk 10 2 "" "" "" "" 1883 10 10 with g_pulses_sent := 99 }
      (Prefs.mk (some 1) (some 10) (some 3) none none none none none)).2.2 = false ∧
    (ram_from_prefs (commit_config
      { Ram.mk 10 2 "" "" "" "" 1883 10 10 with g_pulses_sent := 99 }
      (Prefs.mk (some 1) (some 10) (some 3) none none none none none)).2.1).g_pulses_sent
      = 3 := by
  have h := commit_skips_watermark_only_change (Ram.mk 10 2 "" "" "" "" 1883 10 10)
    (Prefs.mk (some 1) (some 10) (some 3) none none none none none) 99
    (by decide) (by decide)
  exact ⟨h.1, h.2.2⟩

/-! ## C7 and C10 — the /pulses override handler -/

theorem takeWhile_eq_nil_of_none (q : Char → Bool) (l : List Char)
    (h : ∀ c ∈ l, q c = false) : l.takeWhile q = [] := by
  cases l with
  | nil => rfl
  | cons a r =>
      have ha := h a (List.mem_cons_self _ _)
      simp [List.takeWhile_cons, ha]

theorem stringToInt_no_digits (s : String)
    (h : ∀ c ∈ s.data, isDigitC c = false) : stringToInt s = 0 := by
  unfold stringToInt
  dsimp only
  have hsub : ∀ c ∈ s.data.dropWhile isSpaceC, isDigitC c = false :=
    fun c hc => h c ((List.dropWhile_sublist _).subset hc)
  have htail : ∀ c ∈ (s.data.dropWhile isSpaceC).tail, isDigitC c = false :=
    fun c hc => hsub c ((List.tail_sublist _).subset hc)
  have hbody : (if (s.data.dropWhile isSpaceC).headD ' ' = '-'
        ∨ (s.data.dropWhile isSpaceC).headD ' ' = '+'
      then (s.data.dropWhile isSpaceC).tail
      else s.data.dropWhile isSpaceC).takeWhile isDigitC = [] := by
    split
    · exact takeWhile_eq_nil_of_none _ _ htail
    · exact takeWhile_eq_nil_of_none _ _ hsub
  rw [hbody]
  simp [digitsToNat, clampLong]

/-- C7: the override handler rejects the value zero — and with it every
argument whose characters contain no decimal digit, since its integer parse is
zero — with HTTP 500 and an unchanged pulse count, and for every argument
parsing to a non-zero value it replaces the pulse count with that value and
responds with HTTP 200. -/
theorem handle_pulses_zero_rejected (arg : String) (pulses : Int) :
    (stringToInt arg = 0 → handle_pulses (some arg) pulses = (pulses, 500)) ∧
    ((∀ c ∈ arg.data, isDigitC c = false) →
      handle_pulses (some arg) pulses = (pulses, 500)) ∧
    (stringToInt arg ≠ 0 → handle_pulses (some arg) pulses = (stringToInt arg, 200)) := by
  refine ⟨?_, ?_, ?_⟩
  · intro h
    simp [handle_pulses, h]
  · intro h
    simp [handle_pulses, stringToInt_no_digits arg h]
  · intro h
    by_cases hpp : stringToInt arg = pulses
    · have h' : ¬ (pulses = 0) := hpp ▸ h
      simp [handle_pulses, hpp, h']
    · simp [handle_pulses, h, hpp]

/-- Witness for the C7 theorem: a non-numeric argument is rejected with 500
and no state change, a numeric non-zero one is applied with 200. -/
theorem handle_pulses_zero_rejected_witness :
    handle_pulses (some "abc") 7 = (7, 500) ∧
    handle_pulses (some "5") 7 = (5, 200) := by
  have h1 := (handle_pulses_zero_rejected "abc" 7).1 (by decide)
  have h2 := (handle_pulses_zero_rejected "5" 7).2.2 (by decide)
  exact ⟨h1, h2⟩

/-- C10: every argument whose integer parse is non-zero is accepted — the
pulse counter is replaced by the parsed value with HTTP 200 — including
negative values: set=-5 makes the signed counter -5, which is below zero and
below the previous count 100. -/
theorem handle_pulses_accepts_negative (pulses : Int) (arg : String)
    (h : stringToInt arg ≠ 0) :
    handle_pulses (some arg) pulses = (stringToInt arg, 200) ∧
    handle_pulses (some "-5") 100 = (-5, 200) ∧
    ((-5 : Int) < 0 ∧ (-5 : Int) < 100) := by
  refine ⟨?_, by decide, by decide⟩
  by_cases hpp : stringToInt arg = pulses
  · have h' : ¬ (pulses = 0) := hpp ▸ h
    simp [handle_pulses, hpp, h']
  · simp [handle_pulses, h, hpp]

/-- Witness for the C10 theorem at the concrete request set=-5. -/
theorem handle_pulses_accepts_negative_witness :
    handle_pulses (some "-5") 100 = (-5, 200) := by
  exact (handle_pulses_accepts_negative 100 "-5" (by decide)).2.1

/-! ## C8 — the MQTT publish payload -/

/-- C8: counterexample.  With the MQTT sink configured and a counter of 42
pulses, the publish issued by loop() carries the temperature reading (raw 2560,
i.e. 20.0 degrees) as payload, not the decimal string of the counter value. -/
theorem mqtt_payload_not_counter_cex :
    check_mqserver ramC8 = true ∧
    mqtt_temp_publish ramC8 true true 2560 = some ("home/temp", "20.0") ∧
    intToDec ramC8.pulses = "42" ∧ ("20.0" : String) ≠ "42" := by
  decide

/-- C8 (amended): when the MQTT sink is configured (host, port and topic
present) and a completed temperature conversion with a valid reading is
pending, the program publishes the current temperature reading — rendered with
one decimal place as a decimal string — to the configured topic, fire and
forget; the payload is a function of the raw temperature reading alone and is
unaffected by the pulse counter and the watermark. -/
theorem mqtt_publishes_temperature (r : Ram) (rawT : Int)
    (hc : check_mqserver r = true) (hv : rawT ≠ DEVICE_DISCONNECTED_RAW) :
    mqtt_temp_publish r true true rawT = some (r.g_mqtttopic, tempPayload rawT) ∧
    (∀ (q : Int) (g ws : Nat),
      mqtt_temp_publish { r with pulses := q, g_pulses := g, g_pulses_sent := ws }
        true true rawT = some (r.g_mqtttopic, tempPayload rawT)) := by
  constructor
  · simp [mqtt_temp_publish, hc, hv]
  · intro q g ws
    have hc' : check_mqserver
        { r with pulses := q, g_pulses := g, g_pulses_sent := ws } = true := hc
    simp [mqtt_temp_publish, hc', hv]

/-- Witness for the amended C8 theorem at the concrete configured state. -/
theorem mqtt_publishes_temperature_witness :
    mqtt_temp_publish ramC8 true true 2560 = some (ramC8.g_mqtttopic, tempPayload 2560) := by
  exact (mqtt_publishes_temperature ramC8 2560 (by decide) (by decide)).1

end Wasserzaehler
